import Mathlib

/-
Verification of the natural-language specification of pangeo-stacks
build.py against a shallow embedding of the script.

The script is a linear orchestration: parse arguments, probe the git
history and the docker registry for a reusable cache image, compute the
calver of the current UTC day, build the primary image with one of two
backends, optionally validate it, and build a secondary onbuild image.
The embedding below turns each subprocess invocation and repo2docker call
into an element of an action trace, and the ambient world (filesystem,
git log, registry, clock) into an explicit environment record.
-/

namespace Pangeo

/-- Shallow embedding of the Python datetime values used by build.py.
The script only ever reads the calendar components of a datetime, either
in the timezone the value carries or after converting the value to UTC
with astimezone, so a value is recorded as the pair of its carried
calendar components and the UTC calendar components of the same instant. -/
structure PyDateTime where
  year : Nat
  month : Nat
  day : Nat
  utcYear : Nat
  utcMonth : Nat
  utcDay : Nat
  deriving Repr, DecidableEq, Inhabited

/-- date.astimezone(pytz.utc): the same instant, now carrying its UTC
calendar components. -/
def astimezoneUtc (d : PyDateTime) : PyDateTime :=
  ⟨d.utcYear, d.utcMonth, d.utcDay, d.utcYear, d.utcMonth, d.utcDay⟩

/-- The decimal digit character for a digit, as printed by strftime. -/
def digitChar : Nat → Char
  | 0 => '0'
  | 1 => '1'
  | 2 => '2'
  | 3 => '3'
  | 4 => '4'
  | 5 => '5'
  | 6 => '6'
  | 7 => '7'
  | 8 => '8'
  | 9 => '9'
  | _ => '*'

/-- Zero-padded fixed-width decimal rendering, matching the %Y, %m and %d
strftime directives for the value ranges a Python datetime guarantees
(year at most 9999, month and day below 100). -/
def padNum : Nat → Nat → List Char
  | 0, _ => []
  | k + 1, n => digitChar (n / 10 ^ k % 10) :: padNum k n

/-- strftime with the format used twice in build.py, %Y.%m.%d, applied to
calendar components. -/
def formatCalver (y m d : Nat) : String :=
  ⟨padNum 4 y ++ '.' :: padNum 2 m ++ '.' :: padNum 2 d⟩

/-- strftime with format %Y.%m.%d applied to a datetime value: it renders
the calendar components the value carries. -/
def strftimeCalver (d : PyDateTime) : String :=
  formatCalver d.year d.month d.day

/-- Shape test for the rendered tags: ten characters, four digits, a dot,
two digits, a dot, two digits. -/
def calverShape : List Char → Bool
  | [c1, c2, c3, c4, p1, c5, c6, p2, c7, c8] =>
    (p1 == '.') && (p2 == '.') && ([c1, c2, c3, c4, c5, c6, c7, c8].all Char.isDigit)
  | _ => false

/-- A string is in calendar-version form YYYY.MM.DD. -/
def isCalverFormat (s : String) : Bool :=
  calverShape s.data

/-- Python str.startswith on the character lists of the two strings. -/
def strStartsWith (s pre : String) : Bool :=
  pre.data.isPrefixOf s.data

/-- The externally visible operations build.py performs: docker pull,
docker build (with the Dockerfile chosen, the build arguments in order
and the build context path), a repo2docker build (with subdir, output
image spec, cache_from list, user id and user name), running the
binder/verify script in the built container, and docker push. The push
action is never produced by the code; it is part of the vocabulary so
that claims about pushing can be stated. -/
inductive Action where
  | dockerPull (spec : String)
  | dockerBuild (spec : String) (dfPath : String) (buildArgs : List (String × String)) (path : String)
  | r2dBuild (subdir : String) (spec : String) (cacheFrom : List String) (userId : Nat) (userName : String)
  | dockerRunVerify (spec : String)
  | dockerPush (spec : String)
  deriving Repr, DecidableEq

/-- Is this action a docker push? -/
def Action.isPush : Action → Bool
  | .dockerPush _ => true
  | _ => false

/-- Is this action a docker pull? -/
def Action.isPull : Action → Bool
  | .dockerPull _ => true
  | _ => false

/-- Is this action a run of the verification script? -/
def Action.isRunVerify : Action → Bool
  | .dockerRunVerify _ => true
  | _ => false

/-- Does this action build an image with the given spec, by either
backend? -/
def Action.buildsSpec : Action → String → Bool
  | .dockerBuild s _ _ _, t => s == t
  | .r2dBuild _ s _ _ _, t => s == t
  | _, _ => false

/-- Outcome of one client.images.get_registry_data(image_spec) network
query: the manifest is found, the client raises
docker.errors.ImageNotFound, or it raises docker.errors.APIError carrying
an explanation string. -/
inductive RegistryResponse where
  | found
  | notFoundExc
  | apiError (explanation : String)
  deriving Repr, DecidableEq

/-- The body of image_exists_in_registry (build.py lines 32 to 46),
before the lru_cache decorator is applied: a found manifest gives True,
ImageNotFound gives False, an APIError whose explanation starts with the
manifest-unknown text gives False, and any other APIError is re-raised,
modelled as Except.error carrying the explanation. -/
def image_exists_in_registry_body : RegistryResponse → Except String Bool
  | .found => .ok true
  | .notFoundExc => .ok false
  | .apiError e =>
    if strStartsWith e "manifest unknown: " then .ok false else .error e

/-- Lookup in the lru_cache table, most recently used entry first. -/
def lruLookup : List (String × Bool) → String → Option Bool
  | [], _ => none
  | (a, b) :: t, k => if a = k then some b else lruLookup t k

/-- Drop the entry for a key from the cache table. -/
def lruRemove : List (String × Bool) → String → List (String × Bool)
  | [], _ => []
  | (a, b) :: t, k => if a = k then lruRemove t k else (a, b) :: lruRemove t k

/-- On a cache hit, functools.lru_cache moves the entry to the
most-recently-used position. -/
def lruTouch (es : List (String × Bool)) (k : String) : List (String × Bool) :=
  match lruLookup es k with
  | none => es
  | some b => (k, b) :: lruRemove es k

/-- On a cache miss the new entry is stored in the most-recently-used
position; at most 128 entries are kept, anything beyond the capacity of
lru_cache(128) being discarded from the least recently used end. -/
def lruInsert (es : List (String × Bool)) (k : String) (v : Bool) : List (String × Bool) :=
  ((k, v) :: es).take 128

/-- Result of one call of the memoised image_exists_in_registry: the
boolean answer, the cache table after the call, the list of specs this
call actually sent to the registry (empty on a cache hit, a singleton on
a miss), and the query counter after the call. -/
structure ProbeResult where
  val : Bool
  cache : List (String × Bool)
  queried : List String
  time : Nat
  deriving Repr, DecidableEq

/-- image_exists_in_registry as decorated with functools.lru_cache(128).
The docker client handle is one and the same object for the whole run, so
the memoisation key reduces to image_spec. The registry is an oracle
indexed by a query counter, which lets distinct network queries answer
differently over time. Exceptions are not cached, matching lru_cache. -/
def image_exists_in_registry (reg : Nat → String → RegistryResponse)
    (cache : List (String × Bool)) (time : Nat) (image_spec : String) :
    Except String ProbeResult :=
  match lruLookup cache image_spec with
  | some b => .ok ⟨b, lruTouch cache image_spec, [], time⟩
  | none =>
    match image_exists_in_registry_body (reg time image_spec) with
    | .error e => .error e
    | .ok b => .ok ⟨b, lruInsert cache image_spec b, [image_spec], time + 1⟩

/-- modified_date (build.py lines 15 to 28): git log -n n with a date
format prints one line per commit, newest first, at most n of them; the
code keeps the last printed line and parses it. The log for the given
paths is abstracted as the list of parsed commit dates, newest first, so
the call returns the last element of the n-element head of that list;
none models the parse failure on the empty output of an empty history. -/
def modified_date (n : Nat) (dates : List PyDateTime) : Option PyDateTime :=
  (dates.take n).getLast?

/-- os.path.join as used in build.py: every component is a plain relative
name, so joining inserts a single slash. -/
def pathJoin (a b : String) : String := a ++ "/" ++ b

/-- The ambient world build.py interacts with: the host filesystem, the
git history of the current directory (parsed commit dates, newest first),
the docker registry oracle indexed by a query counter, and the calendar
components of the current UTC day. -/
structure Env where
  fsExists : String → Bool
  gitDates : List PyDateTime
  registry : Nat → String → RegistryResponse
  nowYear : Nat
  nowMonth : Nat
  nowDay : Nat

/-- datetime.utcnow(): a naive datetime whose carried components are the
current UTC calendar components. -/
def utcnow (env : Env) : PyDateTime :=
  ⟨env.nowYear, env.nowMonth, env.nowDay, env.nowYear, env.nowMonth, env.nowDay⟩

/-- The parsed command line of build.py: the positional image name, the
image prefix option with default pangeo/, and the push option with
default False. -/
structure Args where
  image : String
  imagePre : String
  push : Bool
  deriving Repr, DecidableEq

/-- State threaded through the cache-discovery loop: the lru_cache table
and its query counter, plus the observation logs of the run so far: every
image_exists_in_registry call with its boolean result, every spec
actually queried at the registry, every strftime result, and the actions
performed. -/
structure LoopSt where
  cache : List (String × Bool)
  time : Nat
  checks : List (String × Bool)
  queryLog : List String
  calvers : List String
  actions : List Action
  deriving Repr, DecidableEq

/-- The state at the start of main: empty cache and empty logs. -/
def initSt : LoopSt := ⟨[], 0, [], [], [], []⟩

/-- The for-loop of build.py lines 118 to 130 over i in range(1, 100):
derive the calver of the i-th most recent commit of the current
directory in UTC, check the registry for imageName:calver, and at the
first hit pull that image, set cache_from to that single spec and stop;
when no candidate hits, cache_from stays empty. -/
def probeLoop (env : Env) (imageName : String) :
    List Nat → LoopSt → Except String (LoopSt × List String)
  | [], st => .ok (st, [])
  | i :: rest, st =>
    match modified_date i env.gitDates with
    | none => .error "git log gave no output"
    | some date =>
      let existing_calver := strftimeCalver (astimezoneUtc date)
      let existing_image_spec := imageName ++ ":" ++ existing_calver
      match image_exists_in_registry env.registry st.cache st.time existing_image_spec with
      | .error e => .error e
      | .ok r =>
        let st1 : LoopSt :=
          { cache := r.cache, time := r.time,
            checks := st.checks ++ [(existing_image_spec, r.val)],
            queryLog := st.queryLog ++ r.queried,
            calvers := st.calvers ++ [existing_calver],
            actions := st.actions }
        if r.val then
          .ok ({ st1 with actions := st1.actions ++ [.dockerPull existing_image_spec] },
            [existing_image_spec])
        else
          probeLoop env imageName rest st1

/-- docker_build (build.py lines 48 to 62): use path/Dockerfile when it
exists and path/binder/Dockerfile otherwise, then run docker build with
the given tag, that Dockerfile, the build arguments in order, and the
path as context. -/
def docker_build (fs : String → Bool) (image_spec : String) (path : String)
    (build_args : List (String × String)) : List Action :=
  let df_path :=
    if fs (pathJoin path "Dockerfile") then pathJoin path "Dockerfile"
    else pathJoin (pathJoin path "binder") "Dockerfile"
  [.dockerBuild image_spec df_path build_args path]

/-- r2d_build (build.py lines 65 to 88): run repo2docker on the subdir
with user id 1000, user name jovyan and the given cache_from list, then,
when the subdir has a binder/verify script, run that script as the
container entrypoint of the built image. -/
def r2d_build (fs : String → Bool) (image : String) (image_spec : String)
    (cache_from : List String) : List Action :=
  [.r2dBuild image image_spec cache_from 1000 "jovyan"] ++
    (if fs (pathJoin image "binder/verify") then [.dockerRunVerify image_spec] else [])

/-- Observations of a completed run of main: the action trace, the
image_exists_in_registry calls with their results, the registry queries
actually sent, every calver string rendered, the final cache_from list,
the calver of the day, and the resolved image name. -/
structure RunOut where
  actions : List Action
  checks : List (String × Bool)
  queryLog : List String
  calvers : List String
  cacheFrom : List String
  calver : String
  imageName : String
  deriving Repr, DecidableEq

/-- build.py lines 133 to 162: render the calver of the current UTC day,
build the primary image with docker_build when image/binder/Dockerfile or
image/Dockerfile exists and with r2d_build otherwise, then build the
onbuild image from the onbuild directory, layered on the primary image
through the BASE_IMAGE_SPEC build argument. -/
def buildPhase (env : Env) (args : Args) (st : LoopSt) (cache_from : List String) : RunOut :=
  let image_name := args.imagePre ++ args.image
  let calver := strftimeCalver (utcnow env)
  let dockerfile_paths :=
    [pathJoin (pathJoin args.image "binder") "Dockerfile", pathJoin args.image "Dockerfile"]
  let primary :=
    if dockerfile_paths.any env.fsExists then
      docker_build env.fsExists (image_name ++ ":" ++ calver) args.image [("CALVER", calver)]
    else
      r2d_build env.fsExists args.image (image_name ++ ":" ++ calver) cache_from
  { actions := st.actions ++ primary ++
      docker_build env.fsExists (image_name ++ "-onbuild:" ++ calver) "onbuild"
        [("BASE_IMAGE_SPEC", image_name ++ ":" ++ calver)],
    checks := st.checks, queryLog := st.queryLog,
    calvers := st.calvers ++ [calver],
    cacheFrom := cache_from, calver := calver, imageName := image_name }

/-- main (build.py lines 90 to 162): resolve the image name, run the
cache-discovery loop, then the build phase. The push option is parsed
into args but, exactly as in the source, never read afterwards. -/
def main (env : Env) (args : Args) : Except String RunOut :=
  match probeLoop env (args.imagePre ++ args.image) (List.range' 1 99) initSt with
  | .error e => .error e
  | .ok (st, cache_from) => .ok (buildPhase env args st cache_from)

/-- The number of docker push actions a run performs (zero when the run
fails). -/
def runPushCount (env : Env) (args : Args) : Nat :=
  match main env args with
  | .error _ => 0
  | .ok out => out.actions.countP Action.isPush

/-- The image spec the loop derives from the i-th most recent commit of
the current directory; the value for an empty history is irrelevant. -/
def specOfIdx (env : Env) (imageName : String) (i : Nat) : String :=
  match modified_date i env.gitDates with
  | some d => imageName ++ ":" ++ strftimeCalver (astimezoneUtc d)
  | none => imageName

/-- The 99 candidate cache image specs probed by the loop, derived from
the most recent commit first. -/
def candidateSpecs (env : Env) (imageName : String) : List String :=
  (List.range' 1 99).map (specOfIdx env imageName)

/-- Whether the registry reports a spec as existing, read off a registry
oracle that does not vary over time. -/
def foundB (env : Env) (s : String) : Bool :=
  match image_exists_in_registry_body (env.registry 0 s) with
  | .ok b => b
  | .error _ => false

/-- A commit date whose carried components (March 10) differ from its UTC
components (March 11), exercising the astimezone conversion. -/
def dateA1 : PyDateTime := ⟨2019, 3, 10, 2019, 3, 11⟩

/-- An older commit date, January 31 local, February 1 in UTC. -/
def dateA2 : PyDateTime := ⟨2019, 1, 31, 2019, 2, 1⟩

/-- Concrete world: no Dockerfile for the image, a verify script present,
two commits, and a registry that has the image tagged with the UTC calver
of the second commit. -/
def envA : Env :=
  { fsExists := fun p => ["base/binder/verify", "onbuild/Dockerfile"].contains p,
    gitDates := [dateA1, dateA2],
    registry := fun _ s => if s = "pangeo/base:2019.02.01" then .found else .notFoundExc,
    nowYear := 2019, nowMonth := 5, nowDay := 5 }

/-- Command line build.py base, with the default image prefix and no
push option. -/
def args0 : Args := ⟨"base", "pangeo/", false⟩

/-- Command line build.py base --push. -/
def argsPush : Args := ⟨"base", "pangeo/", true⟩

/-- The observations of main on envA and args0, computed by hand: the
first candidate misses, the second hits and is pulled, the primary image
is built by repo2docker and verified, and the onbuild image follows. -/
def outA : RunOut :=
  { actions := [.dockerPull "pangeo/base:2019.02.01",
      .r2dBuild "base" "pangeo/base:2019.05.05" ["pangeo/base:2019.02.01"] 1000 "jovyan",
      .dockerRunVerify "pangeo/base:2019.05.05",
      .dockerBuild "pangeo/base-onbuild:2019.05.05" "onbuild/Dockerfile"
        [("BASE_IMAGE_SPEC", "pangeo/base:2019.05.05")] "onbuild"],
    checks := [("pangeo/base:2019.03.11", false), ("pangeo/base:2019.02.01", true)],
    queryLog := ["pangeo/base:2019.03.11", "pangeo/base:2019.02.01"],
    calvers := ["2019.03.11", "2019.02.01", "2019.05.05"],
    cacheFrom := ["pangeo/base:2019.02.01"],
    calver := "2019.05.05",
    imageName := "pangeo/base" }

/-- Concrete world for the verification-script counterexample: the image
directory has both a Dockerfile and a binder/verify script, one commit,
and a registry where every candidate exists. -/
def envB : Env :=
  { fsExists := fun p => ["base/Dockerfile", "base/binder/verify", "onbuild/Dockerfile"].contains p,
    gitDates := [dateA1],
    registry := fun _ _ => .found,
    nowYear := 2019, nowMonth := 5, nowDay := 5 }

/-- The observations of main on envB and args0: the first candidate hits
and is pulled, the primary image is built by docker build because a
Dockerfile exists, and no verification runs although the verify script
exists. -/
def outB : RunOut :=
  { actions := [.dockerPull "pangeo/base:2019.03.11",
      .dockerBuild "pangeo/base:2019.05.05" "base/Dockerfile"
        [("CALVER", "2019.05.05")] "base",
      .dockerBuild "pangeo/base-onbuild:2019.05.05" "onbuild/Dockerfile"
        [("BASE_IMAGE_SPEC", "pangeo/base:2019.05.05")] "onbuild"],
    checks := [("pangeo/base:2019.03.11", true)],
    queryLog := ["pangeo/base:2019.03.11"],
    calvers := ["2019.03.11", "2019.05.05"],
    cacheFrom := ["pangeo/base:2019.03.11"],
    calver := "2019.05.05",
    imageName := "pangeo/base" }

/-- Concrete world for the error-propagation counterexample: the very
first registry lookup raises an APIError whose explanation does not start
with the manifest-unknown text. -/
def envC : Env :=
  { fsExists := fun _ => false,
    gitDates := [dateA1],
    registry := fun _ _ => .apiError "500 server error",
    nowYear := 2019, nowMonth := 5, nowDay := 5 }

/-- Concrete world where every registry lookup raises ImageNotFound, so
every candidate misses and the run proceeds with an empty cache list. -/
def envD : Env :=
  { fsExists := fun p => ["base/binder/verify", "onbuild/Dockerfile"].contains p,
    gitDates := [dateA1, dateA2],
    registry := fun _ _ => .notFoundExc,
    nowYear := 2019, nowMonth := 5, nowDay := 5 }

theorem lruLookup_remove (es : List (String × Bool)) (k s : String) :
    lruLookup (lruRemove es k) s = if s = k then none else lruLookup es s := by
  induction es with
  | nil => simp [lruRemove, lruLookup]
  | cons p t ih =>
    obtain ⟨a, b⟩ := p
    by_cases hak : a = k <;> by_cases hsk : s = k <;> by_cases has : a = s <;>
      simp_all [lruRemove, lruLookup]

theorem lruLookup_touch (es : List (String × Bool)) (k s : String) :
    lruLookup (lruTouch es k) s = lruLookup es s := by
  unfold lruTouch
  cases h : lruLookup es k with
  | none => rfl
  | some b =>
    by_cases hks : k = s
    · subst hks
      simp [lruLookup, h]
    · have hsk : ¬ s = k := fun hh => hks hh.symm
      simp [lruLookup, hks, lruLookup_remove, hsk]

theorem lruLookup_mem {es : List (String × Bool)} {k : String} {b : Bool}
    (h : lruLookup es k = some b) : (k, b) ∈ es := by
  induction es with
  | nil => simp [lruLookup] at h
  | cons p t ih =>
    obtain ⟨a, c⟩ := p
    by_cases hak : a = k
    · subst hak
      simp [lruLookup] at h
      subst h
      exact List.mem_cons_self _ _
    · simp [lruLookup, hak] at h
      exact List.mem_cons_of_mem _ (ih h)

theorem mem_lruRemove {es : List (String × Bool)} {k : String} {p : String × Bool}
    (h : p ∈ lruRemove es k) : p ∈ es := by
  induction es with
  | nil => simp [lruRemove] at h
  | cons q t ih =>
    obtain ⟨a, b⟩ := q
    by_cases hak : a = k
    · rw [lruRemove, if_pos hak] at h
      exact List.mem_cons_of_mem _ (ih h)
    · rw [lruRemove, if_neg hak] at h
      rcases List.mem_cons.mp h with h1 | h2
      · simp [h1]
      · exact List.mem_cons_of_mem _ (ih h2)

theorem mem_lruTouch {es : List (String × Bool)} {k : String} {p : String × Bool}
    (h : p ∈ lruTouch es k) : p ∈ es := by
  unfold lruTouch at h
  cases hl : lruLookup es k with
  | none => rw [hl] at h; exact h
  | some b =>
    rw [hl] at h
    rcases List.mem_cons.mp h with h1 | h2
    · subst h1; exact lruLookup_mem hl
    · exact mem_lruRemove h2

theorem mem_lruInsert {es : List (String × Bool)} {k : String} {v : Bool}
    {p : String × Bool} (h : p ∈ lruInsert es k v) : p = (k, v) ∨ p ∈ es := by
  unfold lruInsert at h
  have := List.take_subset 128 _ h
  exact List.mem_cons.mp this

theorem lruRemove_length_le (es : List (String × Bool)) (k : String) :
    (lruRemove es k).length ≤ es.length := by
  induction es with
  | nil => simp [lruRemove]
  | cons p t ih =>
    obtain ⟨a, b⟩ := p
    by_cases hak : a = k <;> simp [lruRemove, hak] <;> omega

theorem lruRemove_length_lt {es : List (String × Bool)} {k : String} {b : Bool}
    (h : lruLookup es k = some b) : (lruRemove es k).length < es.length := by
  induction es with
  | nil => simp [lruLookup] at h
  | cons p t ih =>
    obtain ⟨a, c⟩ := p
    by_cases hak : a = k
    · simp only [lruRemove, if_pos hak, List.length_cons]
      exact Nat.lt_succ_of_le (lruRemove_length_le t k)
    · simp only [lruLookup, if_neg hak] at h
      simp only [lruRemove, if_neg hak, List.length_cons]
      exact Nat.succ_lt_succ (ih h)

theorem lruTouch_length_le (es : List (String × Bool)) (k : String) :
    (lruTouch es k).length ≤ es.length := by
  unfold lruTouch
  cases h : lruLookup es k with
  | none => exact Nat.le_refl _
  | some b => simpa using lruRemove_length_lt h

theorem lruInsert_of_lt {es : List (String × Bool)} (k : String) (v : Bool)
    (h : es.length < 128) : lruInsert es k v = (k, v) :: es := by
  unfold lruInsert
  exact List.take_of_length_le (by simp; omega)

theorem mem_of_getLast?_eq_some {l : List PyDateTime} {a : PyDateTime}
    (h : l.getLast? = some a) : a ∈ l := by
  induction l with
  | nil => simp at h
  | cons x t ih =>
    cases t with
    | nil => simp [List.getLast?] at h; simp [h]
    | cons y u =>
      rw [List.getLast?_cons_cons] at h
      exact List.mem_cons_of_mem _ (ih h)

theorem getLast?_isSome_of_ne_nil {l : List PyDateTime} (h : l ≠ []) :
    (l.getLast?).isSome = true := by
  induction l with
  | nil => exact absurd rfl h
  | cons x t ih =>
    cases t with
    | nil => rfl
    | cons y u =>
      rw [List.getLast?_cons_cons]
      exact ih (by simp)

theorem modified_date_mem {n : Nat} {dates : List PyDateTime} {d : PyDateTime}
    (h : modified_date n dates = some d) : d ∈ dates :=
  List.take_subset n dates (mem_of_getLast?_eq_some h)

theorem image_exists_queried_len {reg : Nat → String → RegistryResponse}
    {cache : List (String × Bool)} {time : Nat} {spec : String} {r : ProbeResult}
    (hq : image_exists_in_registry reg cache time spec = .ok r) :
    r.queried.length ≤ 1 := by
  unfold image_exists_in_registry at hq
  cases hl : lruLookup cache spec with
  | some b => rw [hl] at hq; cases hq; exact Nat.zero_le 1
  | none =>
    rw [hl] at hq
    cases hb : image_exists_in_registry_body (reg time spec) with
    | error e => rw [hb] at hq; exact Except.noConfusion hq
    | ok b => rw [hb] at hq; cases hq; exact Nat.le_refl 1

theorem image_exists_cache_step {reg : Nat → String → RegistryResponse}
    {cache : List (String × Bool)} {time : Nat} {spec : String} {r : ProbeResult}
    (hlen : cache.length < 128)
    (hq : image_exists_in_registry reg cache time spec = .ok r) :
    (∀ s, s ≠ spec → lruLookup r.cache s = lruLookup cache s) ∧
    lruLookup r.cache spec = some r.val ∧
    r.cache.length ≤ cache.length + 1 ∧
    ((lruLookup cache spec = some r.val ∧ r.queried = []) ∨
      (lruLookup cache spec = none ∧ r.queried = [spec])) := by
  unfold image_exists_in_registry at hq
  cases hl : lruLookup cache spec with
  | some b =>
    rw [hl] at hq
    cases hq
    refine ⟨fun s _ => lruLookup_touch cache spec s, ?_, ?_, Or.inl ⟨rfl, rfl⟩⟩
    · rw [show (⟨b, lruTouch cache spec, [], time⟩ : ProbeResult).cache =
        lruTouch cache spec from rfl, lruLookup_touch]
      exact hl
    · exact Nat.le_succ_of_le (lruTouch_length_le _ _)
  | none =>
    rw [hl] at hq
    cases hb : image_exists_in_registry_body (reg time spec) with
    | error e => rw [hb] at hq; exact Except.noConfusion hq
    | ok b =>
      rw [hb] at hq
      cases hq
      have hins : lruInsert cache spec b = (spec, b) :: cache := lruInsert_of_lt spec b hlen
      refine ⟨?_, ?_, ?_, Or.inr ⟨rfl, rfl⟩⟩
      · intro s hs
        rw [show (⟨b, lruInsert cache spec b, [spec], time + 1⟩ : ProbeResult).cache =
          lruInsert cache spec b from rfl, hins, lruLookup]
        rw [if_neg (fun hh => hs hh.symm)]
      · rw [show (⟨b, lruInsert cache spec b, [spec], time + 1⟩ : ProbeResult).cache =
          lruInsert cache spec b from rfl, hins, lruLookup]
        rw [if_pos rfl]
      · rw [show (⟨b, lruInsert cache spec b, [spec], time + 1⟩ : ProbeResult).cache =
          lruInsert cache spec b from rfl, hins]
        simp

theorem image_exists_pure_step {env : Env} {cache : List (String × Bool)}
    {time : Nat} {spec : String} {r : ProbeResult}
    (hreg : ∀ t s, env.registry t s = env.registry 0 s)
    (hinv : ∀ p ∈ cache, image_exists_in_registry_body (env.registry 0 p.1) = .ok p.2)
    (hq : image_exists_in_registry env.registry cache time spec = .ok r) :
    image_exists_in_registry_body (env.registry 0 spec) = .ok r.val ∧
    (∀ p ∈ r.cache, image_exists_in_registry_body (env.registry 0 p.1) = .ok p.2) := by
  unfold image_exists_in_registry at hq
  cases hl : lruLookup cache spec with
  | some b =>
    rw [hl] at hq
    cases hq
    exact ⟨hinv _ (lruLookup_mem hl), fun p hp => hinv p (mem_lruTouch hp)⟩
  | none =>
    rw [hl] at hq
    cases hb : image_exists_in_registry_body (env.registry time spec) with
    | error e => rw [hb] at hq; exact Except.noConfusion hq
    | ok b =>
      rw [hb] at hq
      cases hq
      rw [hreg] at hb
      refine ⟨hb, fun p hp => ?_⟩
      rcases mem_lruInsert hp with h1 | h2
      · rw [h1]; exact hb
      · exact hinv p h2

theorem take_getLast?_eq {α : Type} :
    ∀ (n : Nat) (l : List α), 1 ≤ n → n ≤ l.length →
      (l.take n).getLast? = l.get? (n - 1) := by
  intro n
  induction n with
  | zero => intro l h1 _; omega
  | succ m ih =>
    intro l _ h2
    cases l with
    | nil => simp at h2
    | cons x t =>
      cases m with
      | zero => simp [List.getLast?]
      | succ k =>
        have h2' : k + 1 ≤ t.length := by simpa using h2
        cases t with
        | nil => simp at h2'
        | cons y u =>
          have := ih (y :: u) (by omega) h2'
          simp only [List.take_succ_cons]
          rw [List.getLast?_cons_cons]
          · simpa using this

theorem probeLoop_basic (env : Env) (im : String) :
    ∀ (is : List Nat) (st st' : LoopSt) (cf : List String),
      probeLoop env im is st = .ok (st', cf) →
      (∃ pulls : List Action, st'.actions = st.actions ++ pulls ∧
        ∀ a ∈ pulls, a.isPull = true) ∧
      st'.checks.length ≤ st.checks.length + is.length ∧
      st'.queryLog.length ≤ st.queryLog.length + is.length ∧
      (∀ t ∈ st'.calvers, t ∈ st.calvers ∨ ∃ d ∈ env.gitDates,
        t = formatCalver d.utcYear d.utcMonth d.utcDay) := by
  intro is
  induction is with
  | nil =>
    intro st st' cf h
    simp only [probeLoop] at h
    cases h
    refine ⟨⟨[], by simp, by simp⟩, by simp, by simp, fun t ht => Or.inl ht⟩
  | cons i rest ih =>
    intro st st' cf h
    simp only [probeLoop] at h
    split at h
    · exact Except.noConfusion h
    · rename_i date hd
      split at h
      · exact Except.noConfusion h
      · rename_i r hq
        have hql : r.queried.length ≤ 1 := image_exists_queried_len hq
        have hdm : date ∈ env.gitDates := modified_date_mem hd
        split at h
        · rename_i hv
          cases h
          refine ⟨⟨[.dockerPull (im ++ ":" ++ strftimeCalver (astimezoneUtc date))],
            rfl, by simp [Action.isPull]⟩, ?_, ?_, ?_⟩
          · dsimp only
            simp only [List.length_append, List.length_cons, List.length_nil]
            omega
          · dsimp only
            simp only [List.length_append, List.length_cons, List.length_nil]
            omega
          · intro t ht
            rcases List.mem_append.mp ht with h1 | h2
            · exact Or.inl h1
            · refine Or.inr ⟨date, hdm, ?_⟩
              simp at h2
              rw [h2]
              rfl
        · rename_i hv
          obtain ⟨⟨pulls, hp1, hp2⟩, hc, hqlog, hcal⟩ := ih _ _ _ h
          refine ⟨⟨pulls, hp1, hp2⟩, ?_, ?_, ?_⟩
          · refine le_trans hc ?_
            dsimp only
            simp only [List.length_append, List.length_cons, List.length_nil]
            omega
          · refine le_trans hqlog ?_
            dsimp only
            simp only [List.length_append, List.length_cons, List.length_nil]
            omega
          · intro t ht
            rcases hcal t ht with h1 | h2
            · rcases List.mem_append.mp h1 with h3 | h4
              · exact Or.inl h3
              · refine Or.inr ⟨date, hdm, ?_⟩
                simp at h4
                rw [h4]
                rfl
            · exact Or.inr h2

theorem isDigit_digitChar_mod (x : Nat) : (digitChar (x % 10)).isDigit = true := by
  have h : x % 10 < 10 := Nat.mod_lt x (by decide)
  set m := x % 10 with hm
  interval_cases m <;> rfl

theorem padNum_four (y : Nat) : padNum 4 y =
    [digitChar (y / 10 ^ 3 % 10), digitChar (y / 10 ^ 2 % 10),
      digitChar (y / 10 ^ 1 % 10), digitChar (y / 10 ^ 0 % 10)] := rfl

theorem padNum_two (m : Nat) : padNum 2 m =
    [digitChar (m / 10 ^ 1 % 10), digitChar (m / 10 ^ 0 % 10)] := rfl

theorem isCalverFormat_formatCalver (y m d : Nat) :
    isCalverFormat (formatCalver y m d) = true := by
  show calverShape (padNum 4 y ++ '.' :: padNum 2 m ++ '.' :: padNum 2 d) = true
  rw [padNum_four, padNum_two, padNum_two]
  simp only [List.cons_append, List.nil_append]
  simp [calverShape, isDigit_digitChar_mod]

theorem probeLoop_ok (env : Env) (im : String)
    (hng : env.gitDates ≠ [])
    (hok : ∀ t s, ∃ b, image_exists_in_registry_body (env.registry t s) = .ok b) :
    ∀ (is : List Nat) (st : LoopSt), (∀ i ∈ is, 1 ≤ i) →
      ∃ st' cf, probeLoop env im is st = .ok (st', cf) := by
  intro is
  induction is with
  | nil => intro st _; exact ⟨st, [], rfl⟩
  | cons i rest ih =>
    intro st hpos
    have hi : 1 ≤ i := hpos i (List.mem_cons_self _ _)
    have hdate : ∃ d, modified_date i env.gitDates = some d := by
      unfold modified_date
      have hne : env.gitDates.take i ≠ [] := by
        cases hgd : env.gitDates with
        | nil => exact absurd hgd hng
        | cons x t =>
          cases i with
          | zero => omega
          | succ k => simp
      cases hgl : (env.gitDates.take i).getLast? with
      | none =>
        have := getLast?_isSome_of_ne_nil hne
        rw [hgl] at this
        exact Bool.noConfusion this
      | some d => exact ⟨d, rfl⟩
    obtain ⟨d, hd⟩ := hdate
    have hq : ∃ r, image_exists_in_registry env.registry st.cache st.time
        (im ++ ":" ++ strftimeCalver (astimezoneUtc d)) = .ok r := by
      unfold image_exists_in_registry
      cases hl : lruLookup st.cache (im ++ ":" ++ strftimeCalver (astimezoneUtc d)) with
      | some b => exact ⟨_, rfl⟩
      | none =>
        obtain ⟨b, hb⟩ := hok st.time (im ++ ":" ++ strftimeCalver (astimezoneUtc d))
        rw [hb]
        exact ⟨_, rfl⟩
    obtain ⟨r, hq⟩ := hq
    simp only [probeLoop, hd, hq]
    by_cases hv : r.val = true
    · rw [if_pos hv]
      exact ⟨_, _, rfl⟩
    · rw [if_neg hv]
      exact ih _ (fun j hj => hpos j (List.mem_cons_of_mem _ hj))

theorem probeLoop_uniform_error (env : Env) (im : String) (e : String)
    (hng : env.gitDates ≠ [])
    (hbad : strStartsWith e "manifest unknown: " = false)
    (hreg : ∀ t s, env.registry t s = .apiError e) :
    ∀ (rest : List Nat) (st : LoopSt), st.cache = [] →
      probeLoop env im (1 :: rest) st = .error e := by
  intro rest st hc
  obtain ⟨d, tl, hgd⟩ : ∃ d tl, env.gitDates = d :: tl := by
    cases hg : env.gitDates with
    | nil => exact absurd hg hng
    | cons d tl => exact ⟨d, tl, rfl⟩
  have hd : modified_date 1 env.gitDates = some d := by
    rw [hgd]
    rfl
  have hbody : image_exists_in_registry_body (RegistryResponse.apiError e) = .error e := by
    show (if strStartsWith e "manifest unknown: " = true then Except.ok false
      else Except.error e) = Except.error e
    rw [hbad]
    rfl
  have hq : image_exists_in_registry env.registry st.cache st.time
      (im ++ ":" ++ strftimeCalver (astimezoneUtc d)) = .error e := by
    unfold image_exists_in_registry
    rw [hc]
    simp only [lruLookup]
    rw [hreg, hbody]
  simp only [probeLoop, hd, hq]

theorem probeLoop_found (env : Env) (im : String)
    (hreg : ∀ t s, env.registry t s = env.registry 0 s) :
    ∀ (is : List Nat) (st st' : LoopSt) (cf : List String),
      (∀ p ∈ st.cache, image_exists_in_registry_body (env.registry 0 p.1) = .ok p.2) →
      probeLoop env im is st = .ok (st', cf) →
      ((is.map (specOfIdx env im)).find? (foundB env) = none →
        cf = [] ∧
        st'.checks = st.checks ++ (is.map (specOfIdx env im)).map (fun c => (c, false)) ∧
        st'.actions = st.actions) ∧
      (∀ s, (is.map (specOfIdx env im)).find? (foundB env) = some s →
        cf = [s] ∧
        st'.checks = st.checks ++
          ((is.map (specOfIdx env im)).takeWhile (fun c => !foundB env c)).map
            (fun c => (c, false)) ++ [(s, true)] ∧
        st'.actions = st.actions ++ [.dockerPull s]) := by
  intro is
  induction is with
  | nil =>
    intro st st' cf hinv h
    simp only [probeLoop] at h
    cases h
    exact ⟨fun _ => ⟨rfl, by simp, rfl⟩, fun s hs => by simp at hs⟩
  | cons i rest ih =>
    intro st st' cf hinv h
    simp only [probeLoop] at h
    split at h
    · exact Except.noConfusion h
    · rename_i date hd
      split at h
      · exact Except.noConfusion h
      · rename_i r hq
        have hspec : specOfIdx env im i = im ++ ":" ++ strftimeCalver (astimezoneUtc date) := by
          unfold specOfIdx
          rw [hd]
        obtain ⟨hbody, hinv'⟩ := image_exists_pure_step hreg hinv hq
        have hfound : foundB env (specOfIdx env im i) = r.val := by
          unfold foundB
          rw [hspec, hbody]
        split at h
        · rename_i hv
          cases h
          rw [hv] at hfound
          constructor
          · intro hnone
            rw [List.map_cons, List.find?_cons_of_pos _ hfound] at hnone
            exact Option.noConfusion hnone
          · intro s hs
            rw [List.map_cons, List.find?_cons_of_pos _ hfound] at hs
            have hsp : specOfIdx env im i = s := by injection hs
            refine ⟨by rw [← hsp, hspec], ?_, ?_⟩
            · rw [List.map_cons, List.takeWhile_cons_of_neg (by rw [hfound]; simp)]
              simp [← hsp, hspec, hv]
            · simp [← hsp, hspec]
        · rename_i hv
          have hvf : r.val = false := by
            revert hv
            cases r.val <;> simp
          rw [hvf] at hfound
          obtain ⟨ihNone, ihSome⟩ := ih _ st' cf hinv' h
          constructor
          · intro hnone
            rw [List.map_cons, List.find?_cons_of_neg _ (by rw [hfound]; simp)] at hnone
            rcases ihNone hnone with ⟨hcf, hck, hac⟩
            refine ⟨hcf, ?_, hac⟩
            rw [hck]
            dsimp only
            simp [hvf, hspec, List.append_assoc]
          · intro s hs
            rw [List.map_cons, List.find?_cons_of_neg _ (by rw [hfound]; simp)] at hs
            rcases ihSome s hs with ⟨hcf, hck, hac⟩
            refine ⟨hcf, ?_, hac⟩
            rw [hck]
            dsimp only
            rw [List.map_cons, List.takeWhile_cons_of_pos (by rw [hfound]; rfl)]
            simp [hvf, hspec, List.append_assoc]

theorem probeLoop_cacheInv (env : Env) (im : String) :
    ∀ (is : List Nat) (st st' : LoopSt) (cf : List String),
      st.cache.length + is.length ≤ 128 →
      (∀ p ∈ st.checks, lruLookup st.cache p.1 = some p.2) →
      st.queryLog.Nodup →
      (∀ s ∈ st.queryLog, (lruLookup st.cache s).isSome = true) →
      probeLoop env im is st = .ok (st', cf) →
      (∀ p ∈ st'.checks, lruLookup st'.cache p.1 = some p.2) ∧
      st'.queryLog.Nodup ∧
      (∀ s ∈ st'.queryLog, (lruLookup st'.cache s).isSome = true) := by
  intro is
  induction is with
  | nil =>
    intro st st' cf _ h1 h2 h3 h
    simp only [probeLoop] at h
    cases h
    exact ⟨h1, h2, h3⟩
  | cons i rest ih =>
    intro st st' cf hlen h1 h2 h3 h
    simp only [probeLoop] at h
    split at h
    · exact Except.noConfusion h
    · rename_i date hd
      split at h
      · exact Except.noConfusion h
      · rename_i r hq
        have hcl : st.cache.length < 128 := by
          simp only [List.length_cons] at hlen
          omega
        obtain ⟨hA, hB, hC, hD⟩ := image_exists_cache_step hcl hq
        have h1' : ∀ p ∈ st.checks ++
            [(im ++ ":" ++ strftimeCalver (astimezoneUtc date), r.val)],
            lruLookup r.cache p.1 = some p.2 := by
          intro p hp
          rcases List.mem_append.mp hp with hold | hnew
          · by_cases hps : p.1 = im ++ ":" ++ strftimeCalver (astimezoneUtc date)
            · have hv1 := h1 p hold
              rw [hps] at hv1 ⊢
              rcases hD with ⟨hDl, _⟩ | ⟨hDl, _⟩
              · rw [hDl] at hv1
                injection hv1 with hv2
                rw [hv2] at hB
                exact hB
              · rw [hDl] at hv1
                exact Option.noConfusion hv1
            · rw [hA p.1 hps]
              exact h1 p hold
          · simp only [List.mem_singleton] at hnew
            rw [hnew]
            exact hB
        have h2' : (st.queryLog ++ r.queried).Nodup := by
          rcases hD with ⟨_, hQ⟩ | ⟨hDnone, hQ⟩
          · rw [hQ]
            simpa using h2
          · rw [hQ]
            rw [List.nodup_append]
            refine ⟨h2, List.nodup_singleton _, ?_⟩
            intro a ha hb
            simp only [List.mem_singleton] at hb
            rw [hb] at ha
            have := h3 _ ha
            rw [hDnone] at this
            exact Bool.noConfusion this
        have h3' : ∀ s ∈ st.queryLog ++ r.queried,
            (lruLookup r.cache s).isSome = true := by
          intro s hs
          by_cases hsp : s = im ++ ":" ++ strftimeCalver (astimezoneUtc date)
          · rw [hsp, hB]
            rfl
          · rw [hA s hsp]
            rcases List.mem_append.mp hs with hs1 | hs2
            · exact h3 s hs1
            · rcases hD with ⟨_, hQ⟩ | ⟨_, hQ⟩ <;> rw [hQ] at hs2
              · simp at hs2
              · simp only [List.mem_singleton] at hs2
                exact absurd hs2 hsp
        have hlen' : r.cache.length + rest.length ≤ 128 := by
          simp only [List.length_cons] at hlen
          omega
        split at h
        · rename_i hv
          cases h
          exact ⟨h1', h2', h3'⟩
        · rename_i hv
          exact ih _ st' cf hlen' h1' h2' h3' h

theorem main_ok_elim {env : Env} {args : Args} {out : RunOut}
    (h : main env args = .ok out) :
    ∃ st cf, probeLoop env (args.imagePre ++ args.image) (List.range' 1 99) initSt =
        .ok (st, cf) ∧ out = buildPhase env args st cf := by
  unfold main at h
  cases hp : probeLoop env (args.imagePre ++ args.image) (List.range' 1 99) initSt with
  | error e => rw [hp] at h; exact Except.noConfusion h
  | ok p =>
    rw [hp] at h
    refine ⟨p.1, p.2, rfl, ?_⟩
    cases h
    rfl


theorem buildPhase_checks (env : Env) (args : Args) (st : LoopSt) (cf : List String) :
    (buildPhase env args st cf).checks = st.checks := rfl

theorem buildPhase_queryLog (env : Env) (args : Args) (st : LoopSt) (cf : List String) :
    (buildPhase env args st cf).queryLog = st.queryLog := rfl

theorem buildPhase_cacheFrom (env : Env) (args : Args) (st : LoopSt) (cf : List String) :
    (buildPhase env args st cf).cacheFrom = cf := rfl

theorem buildPhase_calvers (env : Env) (args : Args) (st : LoopSt) (cf : List String) :
    (buildPhase env args st cf).calvers = st.calvers ++ [strftimeCalver (utcnow env)] := rfl

theorem buildPhase_actions (env : Env) (args : Args) (st : LoopSt) (cf : List String) :
    (buildPhase env args st cf).actions =
      st.actions ++
        (if [pathJoin (pathJoin args.image "binder") "Dockerfile",
            pathJoin args.image "Dockerfile"].any env.fsExists then
          docker_build env.fsExists
            ((args.imagePre ++ args.image) ++ ":" ++ strftimeCalver (utcnow env)) args.image
            [("CALVER", strftimeCalver (utcnow env))]
        else
          r2d_build env.fsExists args.image
            ((args.imagePre ++ args.image) ++ ":" ++ strftimeCalver (utcnow env)) cf) ++
        docker_build env.fsExists
          ((args.imagePre ++ args.image) ++ "-onbuild:" ++ strftimeCalver (utcnow env)) "onbuild"
          [("BASE_IMAGE_SPEC",
            (args.imagePre ++ args.image) ++ ":" ++ strftimeCalver (utcnow env))] := rfl

theorem isPull_shape {a : Action} (h : a.isPull = true) : ∃ s, a = .dockerPull s := by
  cases a with
  | dockerPull s => exact ⟨s, rfl⟩
  | dockerBuild s d b p => exact absurd h (by simp [Action.isPull])
  | r2dBuild s i c u n => exact absurd h (by simp [Action.isPull])
  | dockerRunVerify s => exact absurd h (by simp [Action.isPull])
  | dockerPush s => exact absurd h (by simp [Action.isPull])

theorem buildPhase_mem_actions {env : Env} {args : Args} {st : LoopSt}
    {cf : List String} {a : Action}
    (ha : a ∈ (buildPhase env args st cf).actions) :
    a ∈ st.actions ∨ (a.isPull = false ∧ a.isPush = false) := by
  rw [buildPhase_actions] at ha
  rcases List.mem_append.mp ha with h1 | h2
  · rcases List.mem_append.mp h1 with h3 | h4
    · exact Or.inl h3
    · right
      revert h4
      split
      · intro h4
        simp only [docker_build, List.mem_singleton] at h4
        subst h4
        exact ⟨rfl, rfl⟩
      · intro h4
        simp only [r2d_build, List.mem_append, List.mem_singleton] at h4
        rcases h4 with h5 | h5
        · subst h5
          exact ⟨rfl, rfl⟩
        · revert h5
          split
          · intro h5
            simp only [List.mem_singleton] at h5
            subst h5
            exact ⟨rfl, rfl⟩
          · intro h5
            simp at h5
  · right
    simp only [docker_build, List.mem_singleton] at h2
    subst h2
    exact ⟨rfl, rfl⟩


/-- C1: build.py defines a push option whose help text says the built
image is pushed to the docker registry, but main never reads args.push:
the run is bit-for-bit identical with and without the option, and the
action trace of every successful run contains no docker push, so no run
ever pushes. -/
theorem C1_push_option_ignored (env : Env) (args : Args) :
    main env { args with push := true } = main env { args with push := false } ∧
    runPushCount env args = 0 := by
  constructor
  · rfl
  · unfold runPushCount
    cases hm : main env args with
    | error e => rfl
    | ok out =>
      rw [List.countP_eq_zero]
      intro a ha
      obtain ⟨st, cf, hp, hout⟩ := main_ok_elim hm
      subst hout
      rcases buildPhase_mem_actions ha with h1 | ⟨_, h2⟩
      · obtain ⟨⟨pulls, hp1, hp2⟩, _, _, _⟩ := probeLoop_basic env _ _ _ _ _ hp
        rw [hp1] at h1
        simp only [initSt, List.nil_append] at h1
        obtain ⟨s, rfl⟩ := isPull_shape (hp2 a h1)
        simp [Action.isPush]
      · simp [h2]

/-- Witness for C1 at a concrete world: the run with the push option
equals the run without it, and the count of push actions is zero. -/
theorem C1_witness :
    main envB argsPush = main envB args0 ∧ runPushCount envB args0 = 0 :=
  ⟨(C1_push_option_ignored envB args0).1, (C1_push_option_ignored envB args0).2⟩

/-- C2 counterexample: in the world envB the image directory has the
verification script base/binder/verify, the run succeeds, and yet no
action of the trace runs a verification script, because the image also
has a Dockerfile and so the docker build backend was used. -/
theorem C2_counterexample :
    envB.fsExists (pathJoin "base" "binder/verify") = true ∧
    main envB args0 = .ok outB ∧
    outB.actions.all (fun a => !a.isRunVerify) = true :=
  ⟨rfl, rfl, rfl⟩

/-- C2 amended: the verification script is run only when the
repo2docker backend builds the primary image: when neither Dockerfile
recipe exists and image/binder/verify exists, the trace contains the
verification of the primary image, while whenever a Dockerfile recipe
exists the docker build backend is used and no verification runs, even
if the script exists. -/
theorem C2_verify_only_r2d (env : Env) (args : Args) (out : RunOut)
    (h : main env args = .ok out) :
    ([pathJoin (pathJoin args.image "binder") "Dockerfile",
        pathJoin args.image "Dockerfile"].any env.fsExists = false →
      env.fsExists (pathJoin args.image "binder/verify") = true →
      Action.dockerRunVerify (out.imageName ++ ":" ++ out.calver) ∈ out.actions) ∧
    ([pathJoin (pathJoin args.image "binder") "Dockerfile",
        pathJoin args.image "Dockerfile"].any env.fsExists = true →
      ∀ a ∈ out.actions, a.isRunVerify = false) := by
  obtain ⟨st, cf, hp, hout⟩ := main_ok_elim h
  subst hout
  constructor
  · intro hdf hv
    rw [buildPhase_actions, hdf]
    simp only [Bool.false_eq_true, if_false, r2d_build, hv, if_true]
    simp
    exact Or.inr (Or.inl rfl)
  · intro hdf a ha
    rw [buildPhase_actions, hdf] at ha
    simp only [if_true] at ha
    rcases List.mem_append.mp ha with h1 | h2
    · rcases List.mem_append.mp h1 with h3 | h4
      · obtain ⟨⟨pulls, hp1, hp2⟩, _, _, _⟩ := probeLoop_basic env _ _ _ _ _ hp
        rw [hp1] at h3
        simp only [initSt, List.nil_append] at h3
        obtain ⟨s, rfl⟩ := isPull_shape (hp2 a h3)
        rfl
      · simp only [docker_build, List.mem_singleton] at h4
        subst h4
        rfl
    · simp only [docker_build, List.mem_singleton] at h2
      subst h2
      rfl

/-- Witness for the amended C2: in envA (no Dockerfile, verify script
present) the run does verify the primary image, and in envB (Dockerfile
present) it does not. -/
theorem C2_witness :
    Action.dockerRunVerify "pangeo/base:2019.05.05" ∈ outA.actions ∧
    outB.actions.all (fun a => !a.isRunVerify) = true := by
  constructor
  · exact (C2_verify_only_r2d envA args0 outA rfl).1 rfl rfl
  · have h := (C2_verify_only_r2d envB args0 outB rfl).2 rfl
    simp only [List.all_eq_true]
    intro a ha
    simp [h a ha]

/-- C3 counterexample: in envC the very first registry lookup fails with
an APIError whose explanation does not start with the manifest-unknown
text, and the whole run aborts with that error instead of falling back
to an uncached build. -/
theorem C3_counterexample :
    main envC args0 = .error "500 server error" := rfl

/-- C3 amended: lookups that fail with ImageNotFound, or with an
APIError whose explanation starts with the manifest-unknown text, return
False and probing continues, so a history of such misses leaves the
cache list empty and the run proceeds to the builds with nothing pulled;
an APIError with any other explanation propagates and aborts the run. -/
theorem C3_lookup_error_handling :
    image_exists_in_registry_body .found = .ok true ∧
    image_exists_in_registry_body .notFoundExc = .ok false ∧
    (∀ e, strStartsWith e "manifest unknown: " = true →
      image_exists_in_registry_body (.apiError e) = .ok false) ∧
    (∀ e, strStartsWith e "manifest unknown: " = false →
      image_exists_in_registry_body (.apiError e) = .error e) ∧
    (∀ env args, env.gitDates ≠ [] →
      (∀ t s, env.registry t s = .notFoundExc) →
      ∃ out, main env args = .ok out ∧ out.cacheFrom = [] ∧
        ∀ a ∈ out.actions, a.isPull = false) ∧
    (∀ env args e, env.gitDates ≠ [] →
      strStartsWith e "manifest unknown: " = false →
      (∀ t s, env.registry t s = .apiError e) →
      main env args = .error e) := by
  refine ⟨rfl, rfl, ?_, ?_, ?_, ?_⟩
  · intro e he
    show (if strStartsWith e "manifest unknown: " = true then Except.ok false
      else Except.error e) = Except.ok false
    rw [he]
    rfl
  · intro e he
    show (if strStartsWith e "manifest unknown: " = true then Except.ok false
      else Except.error e) = Except.error e
    rw [he]
    rfl
  · intro env args hng hreg
    have hok : ∀ t s, ∃ b, image_exists_in_registry_body (env.registry t s) = .ok b := by
      intro t s
      rw [hreg]
      exact ⟨false, rfl⟩
    obtain ⟨st, cf, hp⟩ := probeLoop_ok env (args.imagePre ++ args.image) hng hok
      (List.range' 1 99) initSt (by decide)
    have hreg0 : ∀ t s, env.registry t s = env.registry 0 s := by
      intro t s
      rw [hreg, hreg]
    have hfd : ∀ s, foundB env s = false := by
      intro s
      unfold foundB
      rw [hreg]
      rfl
    have hnone : ((List.range' 1 99).map
        (specOfIdx env (args.imagePre ++ args.image))).find? (foundB env) = none := by
      rw [List.find?_eq_none]
      intro x _
      rw [hfd]
      simp
    obtain ⟨hcf, hck, hac⟩ := (probeLoop_found env (args.imagePre ++ args.image) hreg0
      (List.range' 1 99) initSt st cf (by intro p hp2; simp [initSt] at hp2) hp).1 hnone
    refine ⟨buildPhase env args st cf, ?_, ?_, ?_⟩
    · unfold main
      rw [hp]
    · rw [buildPhase_cacheFrom]
      exact hcf
    · intro a ha
      rcases buildPhase_mem_actions ha with h1 | ⟨h2, _⟩
      · rw [hac] at h1
        simp [initSt] at h1
      · exact h2
  · intro env args e hng hbad hreg
    have h1 : List.range' 1 99 = 1 :: List.range' 2 98 := rfl
    unfold main
    rw [h1, probeLoop_uniform_error env (args.imagePre ++ args.image) e hng hbad hreg
      (List.range' 2 98) initSt rfl]

/-- Witness for the amended C3 at concrete worlds: a manifest-unknown
explanation yields False; an all-ImageNotFound history proceeds with an
empty cache list; envC aborts with the foreign APIError explanation. -/
theorem C3_witness :
    image_exists_in_registry_body (.apiError "manifest unknown: no tag") = .ok false ∧
    (main envD args0).toOption.all (fun o => o.cacheFrom.isEmpty) = true ∧
    main envC args0 = .error "500 server error" := by
  refine ⟨C3_lookup_error_handling.2.2.1 "manifest unknown: no tag" rfl, ?_, ?_⟩
  · obtain ⟨out, hm, hcf, -⟩ := C3_lookup_error_handling.2.2.2.2.1 envD args0
      (List.cons_ne_nil dateA1 [dateA2]) (fun t s => rfl)
    rw [hm]
    show out.cacheFrom.isEmpty = true
    rw [hcf]
    rfl
  · exact C3_lookup_error_handling.2.2.2.2.2 envC args0 "500 server error"
      (List.cons_ne_nil dateA1 []) rfl (fun t s => rfl)


theorem buildPhase_imageName (env : Env) (args : Args) (st : LoopSt) (cf : List String) :
    (buildPhase env args st cf).imageName = args.imagePre ++ args.image := rfl

theorem buildPhase_calver (env : Env) (args : Args) (st : LoopSt) (cf : List String) :
    (buildPhase env args st cf).calver = strftimeCalver (utcnow env) := rfl

theorem docker_build_filter_pull (fs : String → Bool) (spec path : String)
    (bargs : List (String × String)) :
    (docker_build fs spec path bargs).filter Action.isPull = [] := by
  simp [docker_build, Action.isPull]

theorem r2d_build_filter_pull (fs : String → Bool) (im spec : String)
    (cfrom : List String) :
    (r2d_build fs im spec cfrom).filter Action.isPull = [] := by
  unfold r2d_build
  split <;> simp [Action.isPull]

theorem buildPhase_filter_pull (env : Env) (args : Args) (st : LoopSt) (cf : List String) :
    (buildPhase env args st cf).actions.filter Action.isPull =
      st.actions.filter Action.isPull := by
  rw [buildPhase_actions, List.filter_append, List.filter_append,
    docker_build_filter_pull]
  split
  · rw [docker_build_filter_pull]
    simp
  · rw [r2d_build_filter_pull]
    simp

/-- C4: under a registry oracle that does not vary over time, the
cache-discovery loop walks the candidate specs derived from the commit
dates of the current directory, newest commit first; at the first
candidate the registry reports as existing, the run pulls exactly that
image, sets the cache list to that single spec, and its checks stop
right there; when no candidate exists the cache list stays empty, every
candidate is checked negatively, and nothing is pulled. -/
theorem C4_cache_discovery (env : Env) (args : Args) (out : RunOut)
    (hreg : ∀ t s, env.registry t s = env.registry 0 s)
    (h : main env args = .ok out) :
    (∀ s, (candidateSpecs env (args.imagePre ++ args.image)).find? (foundB env) = some s →
      out.cacheFrom = [s] ∧
      out.actions.filter Action.isPull = [.dockerPull s] ∧
      out.checks = ((candidateSpecs env (args.imagePre ++ args.image)).takeWhile
        (fun c => !foundB env c)).map (fun c => (c, false)) ++ [(s, true)]) ∧
    ((candidateSpecs env (args.imagePre ++ args.image)).find? (foundB env) = none →
      out.cacheFrom = [] ∧
      out.actions.filter Action.isPull = [] ∧
      out.checks = (candidateSpecs env (args.imagePre ++ args.image)).map
        (fun c => (c, false))) := by
  obtain ⟨st, cf, hp, hout⟩ := main_ok_elim h
  subst hout
  simp only [candidateSpecs]
  have hfnd := probeLoop_found env (args.imagePre ++ args.image) hreg
    (List.range' 1 99) initSt st cf (by intro p hp2; simp [initSt] at hp2) hp
  constructor
  · intro s hs
    obtain ⟨hcf, hck, hac⟩ := hfnd.2 s hs
    refine ⟨?_, ?_, ?_⟩
    · rw [buildPhase_cacheFrom]
      exact hcf
    · rw [buildPhase_filter_pull, hac]
      simp [initSt, Action.isPull]
    · rw [buildPhase_checks, hck]
      simp [initSt]
  · intro hnone
    obtain ⟨hcf, hck, hac⟩ := hfnd.1 hnone
    refine ⟨?_, ?_, ?_⟩
    · rw [buildPhase_cacheFrom]
      exact hcf
    · rw [buildPhase_filter_pull, hac]
      simp [initSt]
    · rw [buildPhase_checks, hck]
      simp [initSt]

/-- Witness for C4 on envA: the second candidate exists in the registry,
so the run sets the cache list to it and pulls exactly that image. -/
theorem C4_witness :
    outA.cacheFrom = ["pangeo/base:2019.02.01"] ∧
    outA.actions.filter Action.isPull = [.dockerPull "pangeo/base:2019.02.01"] := by
  have h := (C4_cache_discovery envA args0 outA (fun t s => rfl) rfl).1
    "pangeo/base:2019.02.01" rfl
  exact ⟨h.1, h.2.1⟩

/-- C5: a successful run resolves the image name from the prefix and the
image argument and renders the calver of the current UTC day; the
primary image is built by exactly one backend: docker build with the
CALVER build argument when image/binder/Dockerfile or image/Dockerfile
exists, repo2docker with the discovered cache list otherwise; in each
case the whole trace is the loop pulls, that one primary build, and the
onbuild build. -/
theorem C5_backend_choice (env : Env) (args : Args) (out : RunOut)
    (h : main env args = .ok out) :
    out.imageName = args.imagePre ++ args.image ∧
    out.calver = strftimeCalver (utcnow env) ∧
    ∃ pulls : List Action, (∀ a ∈ pulls, a.isPull = true) ∧
      ([pathJoin (pathJoin args.image "binder") "Dockerfile",
          pathJoin args.image "Dockerfile"].any env.fsExists = true →
        out.actions = pulls ++
          docker_build env.fsExists (out.imageName ++ ":" ++ out.calver) args.image
            [("CALVER", out.calver)] ++
          docker_build env.fsExists (out.imageName ++ "-onbuild:" ++ out.calver) "onbuild"
            [("BASE_IMAGE_SPEC", out.imageName ++ ":" ++ out.calver)]) ∧
      ([pathJoin (pathJoin args.image "binder") "Dockerfile",
          pathJoin args.image "Dockerfile"].any env.fsExists = false →
        out.actions = pulls ++
          r2d_build env.fsExists args.image (out.imageName ++ ":" ++ out.calver)
            out.cacheFrom ++
          docker_build env.fsExists (out.imageName ++ "-onbuild:" ++ out.calver) "onbuild"
            [("BASE_IMAGE_SPEC", out.imageName ++ ":" ++ out.calver)]) := by
  obtain ⟨st, cf, hp, hout⟩ := main_ok_elim h
  subst hout
  obtain ⟨⟨pulls, hp1, hp2⟩, -, -, -⟩ := probeLoop_basic env _ _ _ _ _ hp
  have hact : st.actions = pulls := by
    rw [hp1]
    simp [initSt]
  refine ⟨rfl, rfl, pulls, hp2, ?_, ?_⟩
  · intro hdf
    rw [buildPhase_actions, buildPhase_imageName, buildPhase_calver, hdf, hact]
    simp
  · intro hdf
    rw [buildPhase_actions, buildPhase_imageName, buildPhase_calver,
      buildPhase_cacheFrom, hdf, hact]
    simp

/-- Witness for C5 on envA: the resolved image name and the calver of
the current UTC day. -/
theorem C5_witness :
    outA.imageName = "pangeo/base" ∧ outA.calver = "2019.05.05" := by
  have h := C5_backend_choice envA args0 outA rfl
  exact ⟨h.1, h.2.1⟩

/-- C6: the cache-discovery loop of a successful run is bounded: it
performs at most 100 image-existence checks and sends at most 100
registry queries (the loop runs over range(1, 100), so at most 99 of
each; termination itself is inherent in the model, main being a total
function). -/
theorem C6_bounded_probing (env : Env) (args : Args) (out : RunOut)
    (h : main env args = .ok out) :
    out.checks.length ≤ 100 ∧ out.queryLog.length ≤ 100 := by
  obtain ⟨st, cf, hp, hout⟩ := main_ok_elim h
  subst hout
  obtain ⟨-, hc, hq, -⟩ := probeLoop_basic env _ _ _ _ _ hp
  have hr : (List.range' 1 99).length = 99 := rfl
  have h0 : initSt.checks.length = 0 := rfl
  have h1 : initSt.queryLog.length = 0 := rfl
  constructor
  · rw [buildPhase_checks]
    refine le_trans hc ?_
    rw [hr, h0]
    omega
  · rw [buildPhase_queryLog]
    refine le_trans hq ?_
    rw [hr, h1]
    omega

/-- Witness for C6 on envA: two checks and two queries, within the
bound. -/
theorem C6_witness :
    outA.checks.length ≤ 100 ∧ outA.queryLog.length ≤ 100 :=
  C6_bounded_probing envA args0 outA rfl

/-- C7: every version tag a successful run renders, the candidate tags
derived from commit dates as well as the tag of the day, is in the form
YYYY.MM.DD, and each is rendered from UTC calendar components: a
candidate tag from the UTC components of some commit date, the final tag
from the current UTC day. -/
theorem C7_calver_tags (env : Env) (args : Args) (out : RunOut)
    (h : main env args = .ok out) :
    (∀ t ∈ out.calvers, isCalverFormat t = true) ∧
    (∀ t ∈ out.calvers,
      (∃ d ∈ env.gitDates, t = formatCalver d.utcYear d.utcMonth d.utcDay) ∨
      t = formatCalver env.nowYear env.nowMonth env.nowDay) := by
  obtain ⟨st, cf, hp, hout⟩ := main_ok_elim h
  subst hout
  obtain ⟨-, -, -, hcal⟩ := probeLoop_basic env _ _ _ _ _ hp
  constructor
  · intro t ht
    rw [buildPhase_calvers] at ht
    rcases List.mem_append.mp ht with h1 | h2
    · rcases hcal t h1 with h3 | ⟨d, -, h4⟩
      · simp [initSt] at h3
      · rw [h4]
        exact isCalverFormat_formatCalver _ _ _
    · simp only [List.mem_singleton] at h2
      rw [h2]
      exact isCalverFormat_formatCalver _ _ _
  · intro t ht
    rw [buildPhase_calvers] at ht
    rcases List.mem_append.mp ht with h1 | h2
    · rcases hcal t h1 with h3 | ⟨d, hd, h4⟩
      · simp [initSt] at h3
      · exact Or.inl ⟨d, hd, h4⟩
    · simp only [List.mem_singleton] at h2
      exact Or.inr h2

/-- Witness for C7 on envA: all three rendered tags are in calver
form. -/
theorem C7_witness : outA.calvers.all isCalverFormat = true := by
  have h := (C7_calver_tags envA args0 outA rfl).1
  simp only [List.all_eq_true]
  exact h

/-- C8: every successful run ends by building the onbuild image: its
trace is some prefix followed by the docker build of
imageName-onbuild:calver from the onbuild directory with BASE_IMAGE_SPEC
set to the full spec of the primary image, and the prefix contains the
build of that primary image. -/
theorem C8_onbuild_image (env : Env) (args : Args) (out : RunOut)
    (h : main env args = .ok out) :
    ∃ pre, out.actions = pre ++
      docker_build env.fsExists (out.imageName ++ "-onbuild:" ++ out.calver) "onbuild"
        [("BASE_IMAGE_SPEC", out.imageName ++ ":" ++ out.calver)] ∧
      ∃ a ∈ pre, a.buildsSpec (out.imageName ++ ":" ++ out.calver) = true := by
  obtain ⟨st, cf, hp, hout⟩ := main_ok_elim h
  subst hout
  refine ⟨st.actions ++
    (if [pathJoin (pathJoin args.image "binder") "Dockerfile",
        pathJoin args.image "Dockerfile"].any env.fsExists then
      docker_build env.fsExists
        ((args.imagePre ++ args.image) ++ ":" ++ strftimeCalver (utcnow env)) args.image
        [("CALVER", strftimeCalver (utcnow env))]
    else
      r2d_build env.fsExists args.image
        ((args.imagePre ++ args.image) ++ ":" ++ strftimeCalver (utcnow env)) cf), ?_, ?_⟩
  · rw [buildPhase_actions, buildPhase_imageName, buildPhase_calver]
  · rw [buildPhase_imageName, buildPhase_calver]
    by_cases hdf : [pathJoin (pathJoin args.image "binder") "Dockerfile",
        pathJoin args.image "Dockerfile"].any env.fsExists = true
    · refine ⟨Action.dockerBuild
        ((args.imagePre ++ args.image) ++ ":" ++ strftimeCalver (utcnow env))
        (if env.fsExists (pathJoin args.image "Dockerfile") then
          pathJoin args.image "Dockerfile"
        else pathJoin (pathJoin args.image "binder") "Dockerfile")
        [("CALVER", strftimeCalver (utcnow env))] args.image, ?_, ?_⟩
      · refine List.mem_append_right _ ?_
        rw [hdf, if_pos rfl]
        unfold docker_build
        exact List.mem_singleton_self _
      · simp [Action.buildsSpec]
    · simp only [Bool.not_eq_true] at hdf
      refine ⟨Action.r2dBuild args.image
        ((args.imagePre ++ args.image) ++ ":" ++ strftimeCalver (utcnow env)) cf
        1000 "jovyan", ?_, ?_⟩
      · refine List.mem_append_right _ ?_
        rw [hdf]
        simp only [Bool.false_eq_true, if_false]
        unfold r2d_build
        exact List.mem_append_left _ (List.mem_singleton_self _)
      · simp [Action.buildsSpec]

/-- Witness for C8 on envA: the onbuild image build is in the trace. -/
theorem C8_witness :
    Action.dockerBuild "pangeo/base-onbuild:2019.05.05" "onbuild/Dockerfile"
      [("BASE_IMAGE_SPEC", "pangeo/base:2019.05.05")] "onbuild" ∈ outA.actions := by
  obtain ⟨pre, heq, -⟩ := C8_onbuild_image envA args0 outA rfl
  rw [heq]
  refine List.mem_append_right _ ?_
  show _ ∈ [Action.dockerBuild "pangeo/base-onbuild:2019.05.05" "onbuild/Dockerfile"
    [("BASE_IMAGE_SPEC", "pangeo/base:2019.05.05")] "onbuild"]
  exact List.mem_singleton_self _

/-- C9: for n at least 1 and a history with at least n commits,
modified_date returns the parsed commit date of the n-th most recent
commit touching the given paths, the last line of the n-line log
output. -/
theorem C9_modified_date (n : Nat) (dates : List PyDateTime)
    (h1 : 1 ≤ n) (h2 : n - 1 < dates.length) :
    modified_date n dates = some (dates.get ⟨n - 1, h2⟩) := by
  unfold modified_date
  rw [take_getLast?_eq n dates h1 (by omega)]
  exact List.get?_eq_get h2

/-- Witness for C9: the second most recent of three commit dates. -/
theorem C9_witness :
    modified_date 2 [dateA1, dateA2, dateA1] =
      some (([dateA1, dateA2, dateA1] : List PyDateTime).get ⟨1, by decide⟩) :=
  C9_modified_date 2 [dateA1, dateA2, dateA1] (by decide) (by decide)

/-- C10: within a successful run, image_exists_in_registry is memoised:
the registry is queried at most once per distinct image spec (the query
log has no duplicates), and any two calls with the same spec return the
same boolean, even though the registry oracle may answer differently at
different query times. -/
theorem C10_memoised_lookup (env : Env) (args : Args) (out : RunOut)
    (h : main env args = .ok out) :
    out.queryLog.Nodup ∧
    ∀ p ∈ out.checks, ∀ q ∈ out.checks, p.1 = q.1 → p.2 = q.2 := by
  obtain ⟨st, cf, hp, hout⟩ := main_ok_elim h
  subst hout
  have hlen : initSt.cache.length + (List.range' 1 99).length ≤ 128 := by
    have hr : (List.range' 1 99).length = 99 := rfl
    have h0 : initSt.cache.length = 0 := rfl
    rw [hr, h0]
    omega
  obtain ⟨h1, h2, h3⟩ := probeLoop_cacheInv env _ (List.range' 1 99) initSt st cf hlen
    (by intro p hp2; simp [initSt] at hp2)
    (by simp [initSt])
    (by intro x hx; simp [initSt] at hx) hp
  rw [buildPhase_queryLog, buildPhase_checks]
  refine ⟨h2, ?_⟩
  intro p hp2 q hq2 hpq
  have e1 := h1 p hp2
  have e2 := h1 q hq2
  rw [hpq] at e1
  rw [e1] at e2
  exact Option.some.inj e2

/-- Witness for C10 on envA: the query log of the run has no
duplicates. -/
theorem C10_witness : outA.queryLog.Nodup :=
  (C10_memoised_lookup envA args0 outA rfl).1

end Pangeo
